import Mathlib

/-!
Shallow embedding of the vtech-frontend todo application.

The repository is a Next.js todo app backed by a Supabase table `todos`:
* `src/app/api/todo/route.ts` (GET list, POST create),
* `src/app/api/todo/[id]/route.ts` (PUT update, DELETE delete),
* `src/app/page.tsx` (client view: local todos cache, filter box),
* `src/lib/supabase.ts` (client handle).

The store is modelled as a list of rows together with counters for the
store-assigned `id` and `created_at` values.  String operations used by the
code (JavaScript `trim`, `toLowerCase`, `includes` and SQL `ILIKE`) are
embedded as executable functions on the character data of Lean strings.
-/

namespace VTech

/-! ### String primitives -/

/-- JavaScript `String.prototype.toLowerCase`, restricted to the per-character
lowering that the todo texts exercise. -/
def lowerStr (s : String) : String := ⟨s.data.map Char.toLower⟩

/-- JavaScript `String.prototype.trim`: drop whitespace from both ends. -/
def trimStr (s : String) : String :=
  ⟨((s.data.dropWhile Char.isWhitespace).reverse.dropWhile Char.isWhitespace).reverse⟩

/-- Is `ns` a prefix of `hay`? -/
def prefixCheck : List Char → List Char → Bool
  | [], _ => true
  | _ :: _, [] => false
  | a :: as, b :: bs => a == b && prefixCheck as bs

/-- Is `ns` a contiguous substring of `hay`?  JavaScript
`String.prototype.includes` on the character lists. -/
def infixCheck : List Char → List Char → Bool
  | ns, [] => prefixCheck ns []
  | ns, h :: t => prefixCheck ns (h :: t) || infixCheck ns t

/-- JavaScript `hay.includes(needle)`. -/
def includes (hay needle : String) : Bool := infixCheck needle.data hay.data

/-- All suffixes of a list, the list itself first. -/
def suffixes : List Char → List (List Char)
  | [] => [[]]
  | c :: cs => (c :: cs) :: suffixes cs

/-- SQL `LIKE` pattern matching over characters: `%` matches any sequence,
`_` matches any single character, a backslash — PostgreSQL's default escape
character — makes the following pattern character match literally (so the
pattern `a\b` matches the text `ab` and does not match the text `a\b`),
and anything else matches itself.  PostgreSQL rejects a pattern ending in
a lone escape character with an error, which the PUT handler would surface
as a 500; the model maps such a pattern to no-match, and no theorem below
depends on that case.  The boolean flag records whether the previous
pattern character was an unconsumed escape, so the head of the pattern is
to be matched literally. -/
def likeMatchE : Bool → List Char → List Char → Bool
  | true, [], _ => false
  | false, [], cs => cs.isEmpty
  | true, e :: ps, cs =>
    match cs with
    | [] => false
    | c :: t => e == c && likeMatchE false ps t
  | false, p :: ps, cs =>
    if p = '\\' then likeMatchE true ps cs
    else if p = '%' then (suffixes cs).any fun t => likeMatchE false ps t
    else
      match cs with
      | [] => false
      | c :: t => (p == '_' || p == c) && likeMatchE false ps t

/-- `LIKE` matching of a whole pattern, starting outside an escape. -/
def likeMatch (ps cs : List Char) : Bool := likeMatchE false ps cs

/-- PostgreSQL `ILIKE`: case-insensitive `LIKE`.  Supabase
`.ilike('todo', pattern)` filters rows whose `todo` satisfies this.  The
PUT handler passes raw user text as the pattern, so wildcard and escape
characters in it keep their SQL meaning. -/
def ilike (pattern s : String) : Bool :=
  likeMatch (lowerStr pattern).data (lowerStr s).data

/-! ### Data model -/

/-- One row of the `todos` table (storage naming convention). -/
structure SupabaseTodo where
  id : String
  todo : String
  is_completed : Bool
  created_at : Nat
deriving DecidableEq

/-- A todo in the API naming convention (`TodoResponse` in `route.ts`). -/
structure TodoResponse where
  id : String
  todo : String
  isCompleted : Bool
  createdAt : Nat
deriving DecidableEq

/-- The field-name translation the handlers apply to every row they return. -/
def toResponse (r : SupabaseTodo) : TodoResponse :=
  { id := r.id, todo := r.todo, isCompleted := r.is_completed, createdAt := r.created_at }

/-- The state of the `todos` table, with counters from which the store
assigns fresh `id` and `created_at` values. -/
structure Store where
  rows : List SupabaseTodo
  nextId : Nat
  nextTime : Nat
deriving DecidableEq

/-- A JSON field of a request body: absent, present but not a string, or a
string.  The handlers check `typeof todo !== 'string'` at runtime, so the
embedding cannot assume the TypeScript annotation. -/
inductive JsonField where
  | missing
  | notString
  | str (s : String)
deriving DecidableEq

/-- Body of `POST /api/todo` (`TodoCreateBody`). -/
structure TodoCreateBody where
  todo : JsonField
  isCompleted : Option Bool
deriving DecidableEq

/-- Body of `PUT /api/todo/[id]` (`TodoUpdateBody`). -/
structure TodoUpdateBody where
  todo : JsonField
  isCompleted : Option Bool
deriving DecidableEq

/-- The partial update the PUT handler accumulates (`TodoUpdateData`). -/
structure TodoUpdateData where
  todo : Option String := none
  is_completed : Option Bool := none
deriving DecidableEq

/-! ### Store operations -/

/-- Result of the store insert. -/
inductive InsertOut where
  | violation
  | ok (row : SupabaseTodo) (s : Store)
deriving DecidableEq

/-- Modelled from the spec: the `todos` table schema and its uniqueness
constraint are not part of the repository (only the Supabase client handle
is configured in `src/lib/supabase.ts`).  Spec §3 states that `text` "must
be unique case-insensitively across all todos (enforced at the store via a
uniqueness constraint)", and the POST handler maps the store's
unique-violation error code `23505` to a 409.  The insert appends a row
with a fresh id and timestamp unless some existing row's text equals the
new text case-insensitively. -/
def Store.insert (s : Store) (text : String) (completed : Bool) : InsertOut :=
  if s.rows.any (fun r => lowerStr r.todo == lowerStr text) then
    .violation
  else
    let row : SupabaseTodo :=
      { id := toString s.nextId, todo := text,
        is_completed := completed, created_at := s.nextTime }
    .ok row { rows := s.rows ++ [row], nextId := s.nextId + 1, nextTime := s.nextTime + 1 }

/-- `applyUpdates u r` is the row `r` after the partial update `u`, fields
absent from `u` left unchanged. -/
def applyUpdates (u : TodoUpdateData) (r : SupabaseTodo) : SupabaseTodo :=
  { r with todo := u.todo.getD r.todo, is_completed := u.is_completed.getD r.is_completed }

/-- Supabase `.update(updates).eq('id', id).select()`: apply the partial
update to every row whose id matches and return the updated rows. -/
def Store.updateRows (s : Store) (id : String) (u : TodoUpdateData) :
    List SupabaseTodo × Store :=
  let newRows := s.rows.map fun r => if r.id = id then applyUpdates u r else r
  (newRows.filter fun r => r.id == id, { s with rows := newRows })

/-! ### HTTP handlers -/

/-- Outcome of `POST /api/todo`. -/
inductive PostOut where
  | validationError
  | duplicate
  | created (t : TodoResponse)
deriving DecidableEq

/-- HTTP status of a create outcome. -/
def PostOut.status : PostOut → Nat
  | .validationError => 400
  | .duplicate => 409
  | .created _ => 201

/-- The `error` field of a create response, when present. -/
def PostOut.errorMessage : PostOut → Option String
  | .validationError => some "Todo text is required"
  | .duplicate => some "Duplicate todo item"
  | .created _ => none

/-- `POST /api/todo` from `route.ts`: validate the text, insert the trimmed
text with `isCompleted` defaulting to `false`, and map the store's
unique-violation to a 409. -/
def todoPOST (s : Store) (b : TodoCreateBody) : PostOut × Store :=
  match b.todo with
  | .str t =>
    if trimStr t = "" then (.validationError, s)
    else
      match Store.insert s (trimStr t) (b.isCompleted.getD false) with
      | .violation => (.duplicate, s)
      | .ok row s' => (.created (toResponse row), s')
  | _ => (.validationError, s)

/-- Outcome of `PUT /api/todo/[id]`. -/
inductive PutOut where
  | idRequired
  | validationError
  | duplicate
  | notFound
  | success (t : TodoResponse)
deriving DecidableEq

/-- HTTP status of an update outcome. -/
def PutOut.status : PutOut → Nat
  | .idRequired => 400
  | .validationError => 400
  | .duplicate => 409
  | .notFound => 404
  | .success _ => 200

/-- The final step of the PUT handler: issue the accumulated partial update
to the store and answer 404 when no row matched, otherwise 200 with the
first updated row translated to the API convention. -/
def putApplyUpdate (s : Store) (id : String) (u : TodoUpdateData) : PutOut × Store :=
  let res := Store.updateRows s id u
  match res.1 with
  | [] => (.notFound, res.2)
  | d :: _ => (.success (toResponse d), res.2)

/-- `PUT /api/todo/[id]` from `route.ts`: reject an empty id, validate the
text when provided, run the ILIKE duplicate pre-check excluding this id,
then apply only the provided fields. -/
def todoPUT (s : Store) (id : String) (b : TodoUpdateBody) : PutOut × Store :=
  if id = "" then (.idRequired, s)
  else
    match b.todo with
    | .notString => (.validationError, s)
    | .str t =>
      if trimStr t = "" then (.validationError, s)
      else if s.rows.any (fun r => ilike (trimStr t) r.todo && r.id != id) then
        (.duplicate, s)
      else
        putApplyUpdate s id { todo := some (trimStr t), is_completed := b.isCompleted }
    | .missing => putApplyUpdate s id { todo := none, is_completed := b.isCompleted }

/-- Outcome of `DELETE /api/todo/[id]`. -/
inductive DeleteOut where
  | idRequired
  | success
deriving DecidableEq

/-- HTTP status of a delete outcome. -/
def DeleteOut.status : DeleteOut → Nat
  | .idRequired => 400
  | .success => 200

/-- `DELETE /api/todo/[id]` from `route.ts`: remove every row with that id
and acknowledge success whether or not one existed. -/
def todoDELETE (s : Store) (id : String) : DeleteOut × Store :=
  if id = "" then (.idRequired, s)
  else (.success, { s with rows := s.rows.filter fun r => r.id != id })

/-- Rows ordered newest first, the `order('created_at', { ascending: false })`
of the GET handler. -/
def newerFirst (a b : SupabaseTodo) : Prop := b.created_at ≤ a.created_at

instance : DecidableRel newerFirst := fun _ _ => Nat.decLe _ _

instance : IsTotal SupabaseTodo newerFirst :=
  ⟨fun a b => Nat.le_total b.created_at a.created_at⟩

instance : IsTrans SupabaseTodo newerFirst :=
  ⟨fun _ _ _ hab hbc => Nat.le_trans hbc hab⟩

/-- `GET /api/todo` from `route.ts`: all rows ordered by `created_at`
descending, each translated to the API naming convention. -/
def todoGET (s : Store) : List TodoResponse :=
  (List.insertionSort newerFirst s.rows).map toResponse

/-! ### Client view (`page.tsx`) -/

/-- How `createTodo` in `page.tsx` updates the cached `todos` list from a
create outcome: prepend the returned todo on success, leave the list alone
on a 409 conflict or any other failure. -/
def createTodoReact (todos : List TodoResponse) (out : PostOut) : List TodoResponse :=
  match out with
  | .created t => t :: todos
  | _ => todos

/-- `filteredTodos` in `page.tsx`: the displayed list, filtered by
case-insensitive substring match of the filter text. -/
def filteredTodos (todos : List TodoResponse) (filterText : String) : List TodoResponse :=
  todos.filter fun t => includes (lowerStr t.todo) (lowerStr filterText)

/-! ### Store well-formedness -/

/-- Invariants the spec states for the table: texts are stored trimmed and
non-empty, no two rows have case-insensitively equal texts, and ids are
unique. -/
abbrev StoreWf (s : Store) : Prop :=
  (∀ r ∈ s.rows, trimStr r.todo = r.todo ∧ r.todo ≠ "") ∧
  s.rows.Pairwise (fun a b => lowerStr a.todo ≠ lowerStr b.todo) ∧
  s.rows.Pairwise (fun a b => a.id ≠ b.id)

/-! ### Helper lemmas -/

lemma lowerStr_eq_empty {s : String} (h : lowerStr s = "") : s = "" := by
  obtain ⟨d⟩ := s
  have hd : d.map Char.toLower = [] := by
    simpa [lowerStr, String.ext_iff] using h
  simp [String.ext_iff, List.map_eq_nil_iff.mp hd]

lemma self_mem_suffixes : ∀ l : List Char, l ∈ suffixes l
  | [] => by simp [suffixes]
  | c :: cs => by simp [suffixes]

lemma nil_mem_suffixes : ∀ l : List Char, [] ∈ suffixes l
  | [] => by simp [suffixes]
  | c :: cs => List.mem_cons_of_mem _ (nil_mem_suffixes cs)

/-- A pattern free of the escape character matches itself: `%` matches the
literal `%` as a (one-character) sequence and `_` matches the literal `_`
as a single character.  With escapes this fails — `a\b` does not match
itself — hence the hypothesis. -/
lemma likeMatch_self_of_no_escape : ∀ l : List Char, '\\' ∉ l → likeMatch l l = true
  | [], _ => rfl
  | p :: ps, h => by
    have hp : p ≠ '\\' := fun e => h (e ▸ List.mem_cons_self p ps)
    have hps : '\\' ∉ ps := fun m => h (List.mem_cons_of_mem _ m)
    by_cases hpc : p = '%'
    · subst hpc
      have hstep : likeMatch ('%' :: ps) ('%' :: ps)
          = (suffixes ('%' :: ps)).any fun t => likeMatchE false ps t := by
        simp [likeMatch, likeMatchE]
      rw [hstep]
      exact List.any_eq_true.mpr
        ⟨ps, List.mem_cons_of_mem _ (self_mem_suffixes ps),
          likeMatch_self_of_no_escape ps hps⟩
    · have ih : likeMatchE false ps ps = true := likeMatch_self_of_no_escape ps hps
      simp [likeMatch, likeMatchE, if_neg hp, if_neg hpc, ih]

lemma likeMatch_percent_all (cs : List Char) : likeMatch ['%'] cs = true := by
  have hstep : likeMatch ['%'] cs = (suffixes cs).any fun t => likeMatchE false [] t := by
    simp [likeMatch, likeMatchE]
  rw [hstep]
  exact List.any_eq_true.mpr ⟨[], nil_mem_suffixes cs, rfl⟩

lemma toNat_ofNat_valid (n : Nat) (h : n.isValidChar) : (Char.ofNat n).toNat = n := by
  rw [Char.ofNat, dif_pos h]
  rfl

/-- `Char.toLower` only moves basic latin capitals into `a`-`z`, so nothing
other than the backslash lowers to the backslash. -/
lemma toLower_eq_backslash {c : Char} (h : c.toLower = '\\') : c = '\\' := by
  simp only [Char.toLower] at h
  split at h
  · rename_i hr
    exfalso
    have hv : (c.toNat + 32).isValidChar := by
      left
      show c.toNat + 32 < 55296
      omega
    have h2 := congrArg Char.toNat h
    rw [toNat_ofNat_valid _ hv] at h2
    have h92 : ('\\').toNat = 92 := by decide
    omega
  · exact h

lemma lowerStr_no_backslash {s : String} (h : '\\' ∉ s.data) :
    '\\' ∉ (lowerStr s).data := by
  intro hm
  rcases List.mem_map.mp hm with ⟨c, hc, he⟩
  exact h (toLower_eq_backslash he ▸ hc)

lemma trimStr_no_backslash {s : String} (h : '\\' ∉ s.data) :
    '\\' ∉ (trimStr s).data := by
  intro hm
  apply h
  have h1 := List.mem_reverse.mp hm
  have h2 := (List.dropWhile_sublist _).subset h1
  have h3 := List.mem_reverse.mp h2
  exact (List.dropWhile_sublist _).subset h3

/-- A string that equals an escape-free pattern up to case satisfies the
`ILIKE` filter: on backslash-free texts the duplicate pre-check never
misses a case-insensitive equal. -/
lemma ilike_of_lower_eq {pattern s : String}
    (hesc : '\\' ∉ (lowerStr pattern).data)
    (h : lowerStr s = lowerStr pattern) : ilike pattern s = true := by
  unfold ilike
  rw [h]
  exact likeMatch_self_of_no_escape _ hesc

lemma prefixCheck_iff : ∀ ns hay : List Char, prefixCheck ns hay = true ↔ ns <+: hay
  | [], hay => by simp [prefixCheck, List.nil_prefix]
  | a :: as, [] => by simp [prefixCheck]
  | a :: as, b :: bs => by
    simp [prefixCheck, List.cons_prefix_cons, prefixCheck_iff as bs, and_comm]

lemma infixCheck_iff (ns : List Char) : ∀ hay : List Char,
    infixCheck ns hay = true ↔ ns <:+: hay
  | [] => by simp [infixCheck, prefixCheck_iff, List.prefix_nil, List.infix_nil]
  | h :: t => by
    simp [infixCheck, prefixCheck_iff, infixCheck_iff ns t, List.infix_cons_iff]

lemma includes_iff (hay needle : String) :
    includes hay needle = true ↔ needle.data <:+: hay.data := by
  simp [includes, infixCheck_iff]

lemma includes_nil (hay : String) : includes hay "" = true := by
  simp [includes_iff]

/-- In a list in which no two elements both satisfy `p`, the filter by `p`
keeps exactly the one member known to satisfy it. -/
lemma length_filter_eq_one {α : Type} {l : List α} {p : α → Bool}
    (hpw : l.Pairwise fun a b => ¬(p a = true ∧ p b = true))
    {r : α} (hr : r ∈ l) (hp : p r = true) :
    (l.filter p).length = 1 := by
  induction l with
  | nil => cases hr
  | cons a tl ih =>
    rcases List.pairwise_cons.mp hpw with ⟨ha, htl⟩
    rcases List.mem_cons.mp hr with rfl | hr'
    · rw [List.filter_cons_of_pos hp]
      have htail : tl.filter p = [] :=
        List.filter_eq_nil_iff.mpr fun b hb hpb => ha b hb ⟨hp, hpb⟩
      rw [htail]
      rfl
    · have hpa : ¬p a = true := fun hpa => ha r hr' ⟨hpa, hp⟩
      rw [List.filter_cons_of_neg hpa]
      exact ih htl hr'

/-- Updating rows at an id not present in the table touches nothing and
selects nothing. -/
lemma updateRows_of_not_mem (s : Store) (id : String) (u : TodoUpdateData)
    (h : ∀ r ∈ s.rows, r.id ≠ id) :
    Store.updateRows s id u = ([], s) := by
  have hmap : (s.rows.map fun r => if r.id = id then applyUpdates u r else r) = s.rows := by
    have hcongr : ∀ r ∈ s.rows, (if r.id = id then applyUpdates u r else r) = r :=
      fun r hr => by simp [if_neg (h r hr)]
    rw [List.map_congr_left hcongr, List.map_id']
  have hfil : (s.rows.filter fun r => r.id == id) = [] :=
    List.filter_eq_nil_iff.mpr fun r hr => by simpa using h r hr
  simp only [Store.updateRows]
  rw [hmap, hfil]

/-- Rewriting the row at `id` in a table with pairwise-distinct ids and
then selecting by `id` yields exactly the rewritten row. -/
lemma filter_map_eq_single {l : List SupabaseTodo}
    (hpw : l.Pairwise fun a b => a.id ≠ b.id)
    {r : SupabaseTodo} (hr : r ∈ l) {id : String} (hid : r.id = id)
    (f : SupabaseTodo → SupabaseTodo) (hf : ∀ x, (f x).id = x.id) :
    ((l.map fun x => if x.id = id then f x else x).filter fun x => x.id == id) = [f r] := by
  induction l with
  | nil => cases hr
  | cons a tl ih =>
    rcases List.pairwise_cons.mp hpw with ⟨ha, htl⟩
    rcases List.mem_cons.mp hr with rfl | hr'
    · rw [List.map_cons, if_pos hid,
        List.filter_cons_of_pos (by simp [hf, hid])]
      have htail :
          ((tl.map fun x => if x.id = id then f x else x).filter fun x => x.id == id) = [] := by
        refine List.filter_eq_nil_iff.mpr fun b hb => ?_
        rcases List.mem_map.mp hb with ⟨x, hx, rfl⟩
        have hxid : x.id ≠ id := fun h => ha x hx (hid.trans h.symm)
        rw [if_neg hxid]
        simpa using hxid
      rw [htail]
    · have haid : a.id ≠ id := fun h => ha r hr' (by rw [h, hid])
      rw [List.map_cons, if_neg haid,
        List.filter_cons_of_neg (by simpa using haid)]
      exact ih htl hr'

/-- Updating rows at the id of a member of a table with pairwise-distinct
ids rewrites exactly that row and selects exactly its updated version. -/
lemma updateRows_of_mem (s : Store) (id : String) (u : TodoUpdateData)
    (hpw : s.rows.Pairwise fun a b => a.id ≠ b.id)
    {r : SupabaseTodo} (hr : r ∈ s.rows) (hid : r.id = id) :
    Store.updateRows s id u =
      ([applyUpdates u r],
       { s with rows := s.rows.map fun x => if x.id = id then applyUpdates u x else x }) := by
  simp only [Store.updateRows]
  rw [filter_map_eq_single hpw hr hid (applyUpdates u) fun x => rfl]

/-! ### Sample data for concrete witnesses -/

/-- A concrete stored row. -/
def sampleRow : SupabaseTodo :=
  { id := "1", todo := "Buy Milk", is_completed := false, created_at := 0 }

/-- A concrete well-formed store holding `sampleRow`. -/
def sampleStore : Store := { rows := [sampleRow], nextId := 2, nextTime := 1 }

/-! ### Claims -/

/-- Claim C1: a create request whose trimmed text equals, case-insensitively,
the trimmed text of an existing todo yields a 409 conflict with the
human-readable message "Duplicate todo item", the store is unchanged and
still holds exactly one row with that text, and the client leaves its local
todos list unmodified on the conflict. -/
theorem c1_create_duplicate_conflict
    (s : Store) (todos : List TodoResponse) (b : TodoCreateBody) (t : String)
    (hwf : StoreWf s) (hb : b.todo = .str t)
    (r : SupabaseTodo) (hr : r ∈ s.rows)
    (heq : lowerStr (trimStr r.todo) = lowerStr (trimStr t)) :
    todoPOST s b = (.duplicate, s) ∧
    PostOut.status (todoPOST s b).1 = 409 ∧
    PostOut.errorMessage (todoPOST s b).1 = some "Duplicate todo item" ∧
    (((todoPOST s b).2.rows.filter
        fun x => lowerStr x.todo == lowerStr (trimStr t)).length = 1) ∧
    createTodoReact todos (todoPOST s b).1 = todos := by
  obtain ⟨htrim, hne⟩ := hwf.1 r hr
  rw [htrim] at heq
  have ht : trimStr t ≠ "" := by
    intro h
    rw [h] at heq
    exact hne (lowerStr_eq_empty heq)
  have hany : (s.rows.any fun x => lowerStr x.todo == lowerStr (trimStr t)) = true :=
    List.any_eq_true.mpr ⟨r, hr, by simp [heq]⟩
  have hmain : todoPOST s b = (.duplicate, s) := by
    simp [todoPOST, hb, if_neg ht, Store.insert, hany]
  have hcount : ((s.rows.filter
      fun x => lowerStr x.todo == lowerStr (trimStr t)).length = 1) := by
    refine length_filter_eq_one ?_ hr (by simp [heq])
    refine hwf.2.1.imp ?_
    intro a b' hab ⟨hpa, hpb⟩
    exact hab ((beq_iff_eq.mp hpa).trans (beq_iff_eq.mp hpb).symm)
  refine ⟨hmain, ?_, ?_, ?_, ?_⟩ <;> rw [hmain]
  · rfl
  · rfl
  · exact hcount
  · rfl

/-- Concrete run of claim C1: creating " BUY MILK " over a store already
holding "Buy Milk" conflicts and leaves the client list alone. -/
theorem c1_witness :
    (todoPOST sampleStore { todo := .str " BUY MILK ", isCompleted := none }).1
      = .duplicate ∧
    createTodoReact [toResponse sampleRow]
        (todoPOST sampleStore { todo := .str " BUY MILK ", isCompleted := none }).1
      = [toResponse sampleRow] := by
  have h := c1_create_duplicate_conflict sampleStore [toResponse sampleRow]
    { todo := .str " BUY MILK ", isCompleted := none } " BUY MILK "
    (by decide) rfl sampleRow (by decide) (by decide)
  exact ⟨by rw [h.1], h.2.2.2.2⟩

/-- Claim C2 as frozen is falsified by the code: the duplicate pre-check
passes the new trimmed text to `ILIKE` as a raw pattern, in which a
backslash escapes the next character, so the pattern `a\b` does not match
the stored text `a\b`.  Updating row "2" to the text `a\b` while another
row holds exactly that text does not answer 409: the pre-check misses and
the handler proceeds to the write (whose store-side uniqueness failure the
PUT handler only surfaces as a 500 — it never maps it to 409). -/
theorem c2_counterexample :
    lowerStr (trimStr "a\\b") = lowerStr "a\\b" ∧
    PutOut.status
      (todoPUT
        { rows := [{ id := "1", todo := "a\\b", is_completed := false, created_at := 0 },
                   { id := "2", todo := "c", is_completed := false, created_at := 1 }],
          nextId := 3, nextTime := 2 }
        "2" { todo := .str "a\\b", isCompleted := none }).1 ≠ 409 := by
  constructor <;> decide

/-- Claim C2 amended: an update that provides a backslash-free text whose
trimmed form equals, case-insensitively, the text of some other row (a row
with a different id) yields a 409 conflict and writes nothing: the store
is unchanged.  The backslash restriction is forced by the counterexample:
in a backslash-containing text the escape character changes the `ILIKE`
pattern's meaning and the pre-check can miss the duplicate. -/
theorem c2_update_duplicate_conflict
    (s : Store) (id : String) (b : TodoUpdateBody) (t : String)
    (hwf : StoreWf s) (hid : id ≠ "") (hb : b.todo = .str t)
    (hesc : '\\' ∉ t.data)
    (other : SupabaseTodo) (ho : other ∈ s.rows) (hoid : other.id ≠ id)
    (heq : lowerStr (trimStr other.todo) = lowerStr (trimStr t)) :
    todoPUT s id b = (.duplicate, s) ∧
    PutOut.status (todoPUT s id b).1 = 409 := by
  obtain ⟨htrim, hne⟩ := hwf.1 other ho
  rw [htrim] at heq
  have ht : trimStr t ≠ "" := by
    intro h
    rw [h] at heq
    exact hne (lowerStr_eq_empty heq)
  have hesc2 : '\\' ∉ (lowerStr (trimStr t)).data :=
    lowerStr_no_backslash (trimStr_no_backslash hesc)
  have hany : (s.rows.any fun x => ilike (trimStr t) x.todo && x.id != id) = true :=
    List.any_eq_true.mpr ⟨other, ho, by simp [ilike_of_lower_eq hesc2 heq, hoid]⟩
  have hmain : todoPUT s id b = (.duplicate, s) := by
    simp [todoPUT, if_neg hid, hb, if_neg ht, hany]
  exact ⟨hmain, by rw [hmain]; rfl⟩

/-- Concrete run of amended claim C2: updating row "2" of a two-row store
to the other row's backslash-free text up to case conflicts and changes
nothing. -/
theorem c2_witness :
    todoPUT
        { rows := [sampleRow,
            { id := "2", todo := "Walk Dog", is_completed := false, created_at := 1 }],
          nextId := 3, nextTime := 2 }
        "2" { todo := .str "buy milk", isCompleted := none }
      = (.duplicate,
         { rows := [sampleRow,
             { id := "2", todo := "Walk Dog", is_completed := false, created_at := 1 }],
           nextId := 3, nextTime := 2 }) :=
  (c2_update_duplicate_conflict _ "2" _ "buy milk" (by decide) (by decide) rfl
    (by decide) sampleRow (by decide) (by decide) (by decide)).1

/-- Claim C3: a create request whose text is missing, not a string, or
whitespace-only after trimming is rejected with a 400 and the store is
unchanged; a valid create inserts a row whose text is the trimmed input,
with `completed` defaulting to false when omitted. -/
theorem c3_create_validation :
    (∀ (s : Store) (b : TodoCreateBody),
      (b.todo = .missing ∨ b.todo = .notString ∨
        ∃ t, b.todo = .str t ∧ trimStr t = "") →
      todoPOST s b = (.validationError, s) ∧
      PostOut.status (todoPOST s b).1 = 400) ∧
    (∀ (s : Store) (b : TodoCreateBody) (t : String),
      b.todo = .str t → trimStr t ≠ "" →
      (∀ r ∈ s.rows, lowerStr r.todo ≠ lowerStr (trimStr t)) →
      ∃ row s', todoPOST s b = (.created (toResponse row), s') ∧
        row.todo = trimStr t ∧
        row.is_completed = b.isCompleted.getD false ∧
        (b.isCompleted = none → row.is_completed = false) ∧
        s'.rows = s.rows ++ [row]) := by
  constructor
  · intro s b h
    have hmain : todoPOST s b = (.validationError, s) := by
      rcases h with h | h | ⟨t, hb, ht⟩
      · simp [todoPOST, h]
      · simp [todoPOST, h]
      · simp [todoPOST, hb, ht]
    exact ⟨hmain, by rw [hmain]; rfl⟩
  · intro s b t hb ht hnodup
    have hany : (s.rows.any fun x => lowerStr x.todo == lowerStr (trimStr t)) = false :=
      List.any_eq_false.mpr fun x hx => by simpa using hnodup x hx
    refine ⟨⟨toString s.nextId, trimStr t, b.isCompleted.getD false, s.nextTime⟩,
      ⟨s.rows ++ [⟨toString s.nextId, trimStr t, b.isCompleted.getD false, s.nextTime⟩],
        s.nextId + 1, s.nextTime + 1⟩,
      ?_, rfl, rfl, fun hnone => by rw [hnone]; rfl, rfl⟩
    simp [todoPOST, hb, if_neg ht, Store.insert, hany]

/-- Concrete run of claim C3: whitespace-only text is rejected on the
sample store, and creating "  Walk Dog " inserts the trimmed text with
`completed` false. -/
theorem c3_witness :
    todoPOST sampleStore { todo := .str "   ", isCompleted := none }
      = (.validationError, sampleStore) ∧
    ∃ row s', todoPOST sampleStore { todo := .str "  Walk Dog ", isCompleted := none }
      = (.created (toResponse row), s') ∧
      row.todo = "Walk Dog" ∧ row.is_completed = false := by
  constructor
  · exact (c3_create_validation.1 sampleStore _
      (Or.inr (Or.inr ⟨"   ", rfl, by decide⟩))).1
  · obtain ⟨row, s', hmain, htext, hcomp, -, -⟩ :=
      c3_create_validation.2 sampleStore
        { todo := .str "  Walk Dog ", isCompleted := none } "  Walk Dog "
        rfl (by decide) (by decide)
    refine ⟨row, s', hmain, ?_, ?_⟩
    · rw [htext]; decide
    · rw [hcomp]; rfl

/-- Claim C4 as frozen is falsified by the code: a PUT addressed to an id
for which no row exists does not always return 404, because the ILIKE
duplicate pre-check runs first.  On a store holding only row "1" with text
"Buy Milk", updating the unknown id "2" to the text "Buy Milk" answers
409, not 404. -/
theorem c4_counterexample :
    (sampleStore.rows.all fun r => r.id != "2") = true ∧
    (todoPUT sampleStore "2" { todo := .str "Buy Milk", isCompleted := none }).1
      = .duplicate ∧
    PutOut.status
      (todoPUT sampleStore "2" { todo := .str "Buy Milk", isCompleted := none }).1
      ≠ 404 := by
  refine ⟨rfl, ?_, ?_⟩ <;> decide

/-- Claim C4 amended: a PUT addressed to an id for which no row exists
returns 404 — distinct from the 409 and 400 outcomes — provided the body
passes the text validation and the ILIKE duplicate pre-check (it provides
no text, or a text that is non-empty after trimming and matches no other
row); the store is left unchanged. -/
theorem c4_update_unknown_id_not_found
    (s : Store) (id : String) (b : TodoUpdateBody)
    (hid : id ≠ "") (hno : ∀ r ∈ s.rows, r.id ≠ id)
    (hbody : b.todo = .missing ∨
      ∃ t, b.todo = .str t ∧ trimStr t ≠ "" ∧
        ∀ r ∈ s.rows, ¬(ilike (trimStr t) r.todo = true ∧ r.id ≠ id)) :
    todoPUT s id b = (.notFound, s) ∧
    PutOut.status (todoPUT s id b).1 = 404 ∧
    PutOut.status (todoPUT s id b).1 ≠ 409 ∧
    PutOut.status (todoPUT s id b).1 ≠ 400 := by
  have hmain : todoPUT s id b = (.notFound, s) := by
    rcases hbody with h | ⟨t, hb, ht, hdup⟩
    · simp [todoPUT, if_neg hid, h, putApplyUpdate,
        updateRows_of_not_mem s id _ hno]
    · have hany : (s.rows.any fun x => ilike (trimStr t) x.todo && x.id != id) = false := by
        refine List.any_eq_false.mpr fun x hx hpx => ?_
        rcases (by simpa using hpx :
          ilike (trimStr t) x.todo = true ∧ x.id ≠ id) with ⟨hil, hbe⟩
        exact hdup x hx ⟨hil, hbe⟩
      simp [todoPUT, if_neg hid, hb, if_neg ht, hany, putApplyUpdate,
        updateRows_of_not_mem s id _ hno]
  refine ⟨hmain, ?_, ?_, ?_⟩ <;> rw [hmain] <;> simp [PutOut.status]

/-- Concrete run of amended claim C4: updating unknown id "2" with a fresh
text on the sample store yields 404 and no change. -/
theorem c4_witness :
    todoPUT sampleStore "2" { todo := .str "Water Plants", isCompleted := none }
      = (.notFound, sampleStore) :=
  (c4_update_unknown_id_not_found sampleStore "2"
    { todo := .str "Water Plants", isCompleted := none }
    (by decide) (by decide)
    (Or.inr ⟨"Water Plants", rfl, by decide, by decide⟩)).1

/-- Claim C5: delete is idempotent.  Every delete with a non-empty id —
whether or not a row with that id exists — answers the same success
acknowledgment with status 200, a second delete of the same id still
answers success, and deleting an id held by no row leaves the store
unchanged. -/
theorem c5_delete_idempotent (s : Store) (id : String) (hid : id ≠ "") :
    (todoDELETE s id).1 = .success ∧
    DeleteOut.status (todoDELETE s id).1 = 200 ∧
    (todoDELETE (todoDELETE s id).2 id).1 = .success ∧
    ((∀ r ∈ s.rows, r.id ≠ id) → todoDELETE s id = (.success, s)) := by
  refine ⟨by simp [todoDELETE, hid], by simp [todoDELETE, hid, DeleteOut.status],
    by simp [todoDELETE, hid], fun hno => ?_⟩
  have hfil : (s.rows.filter fun r => r.id != id) = s.rows :=
    List.filter_eq_self.mpr fun r hr => by simpa using hno r hr
  simp [todoDELETE, hid, hfil]

/-- Concrete run of claim C5: deleting the unknown id "9" from the sample
store succeeds and changes nothing, and so does deleting it again. -/
theorem c5_witness :
    (todoDELETE sampleStore "9").1 = .success ∧
    todoDELETE sampleStore "9" = (.success, sampleStore) := by
  have h := c5_delete_idempotent sampleStore "9" (by decide)
  exact ⟨h.1, h.2.2.2 (by decide)⟩

/-- Claim C9: a PUT whose body provides neither `todo` nor `isCompleted`
is not rejected as invalid: the handler forwards an empty field set to the
store, so the outcome is exactly whatever the store's empty update
produces, and is never the 400 validation outcome. -/
theorem c9_empty_update_not_rejected (s : Store) (id : String) (hid : id ≠ "") :
    todoPUT s id { todo := .missing, isCompleted := none }
      = putApplyUpdate s id {} ∧
    (todoPUT s id { todo := .missing, isCompleted := none }).1 ≠ .validationError ∧
    PutOut.status (todoPUT s id { todo := .missing, isCompleted := none }).1 ≠ 400 := by
  have hmain : todoPUT s id { todo := .missing, isCompleted := none }
      = putApplyUpdate s id {} := by
    simp [todoPUT, if_neg hid]
  refine ⟨hmain, ?_, ?_⟩ <;> rw [hmain] <;>
    rcases hres : (Store.updateRows s id {}).1 with _ | ⟨d, tl⟩ <;>
    simp [putApplyUpdate, hres, PutOut.status]

/-- Concrete run of claim C9: an empty update body addressed to the sample
row answers 200 with the row unchanged, not a validation error. -/
theorem c9_witness :
    (todoPUT sampleStore "1" { todo := .missing, isCompleted := none }).1
      ≠ .validationError ∧
    (todoPUT sampleStore "1" { todo := .missing, isCompleted := none }).1
      = .success (toResponse sampleRow) := by
  have h := c9_empty_update_not_rejected sampleStore "1" (by decide)
  exact ⟨h.2.1, by decide⟩

/-- Claim C10: the PUT duplicate pre-check matches the new trimmed text as
an SQL ILIKE pattern, not by case-insensitive equality, so wildcard
characters in the text over-match: updating a todo's text to "%" conflicts
whenever any other row exists, whatever that row's text. -/
theorem c10_ilike_wildcard_conflict
    (s : Store) (id : String) (b : TodoUpdateBody)
    (hid : id ≠ "") (hb : b.todo = .str "%")
    (other : SupabaseTodo) (ho : other ∈ s.rows) (hoid : other.id ≠ id) :
    todoPUT s id b = (.duplicate, s) ∧
    PutOut.status (todoPUT s id b).1 = 409 ∧
    ilike "%" other.todo = true := by
  have hilike : ∀ x : SupabaseTodo, ilike "%" x.todo = true := by
    intro x
    have hpat : (lowerStr "%").data = ['%'] := by decide
    unfold ilike
    rw [hpat]
    exact likeMatch_percent_all _
  have hany : (s.rows.any fun x => ilike (trimStr "%") x.todo && x.id != id) = true := by
    refine List.any_eq_true.mpr ⟨other, ho, ?_⟩
    have : trimStr "%" = "%" := by decide
    rw [this, hilike other]
    simpa using hoid
  have hmain : todoPUT s id b = (.duplicate, s) := by
    simp [todoPUT, if_neg hid, hb, hany, show trimStr "%" ≠ "" by decide]
  exact ⟨hmain, by rw [hmain]; rfl, hilike other⟩

/-- Concrete run of claim C10: setting the text of the unknown id "2" to
"%" conflicts on the sample store although "%" is not case-insensitively
equal to "Buy Milk". -/
theorem c10_witness :
    todoPUT sampleStore "2" { todo := .str "%", isCompleted := none }
      = (.duplicate, sampleStore) ∧
    lowerStr "%" ≠ lowerStr sampleRow.todo := by
  have h := c10_ilike_wildcard_conflict sampleStore "2"
    { todo := .str "%", isCompleted := none } (by decide) rfl
    sampleRow (by decide) (by decide)
  exact ⟨h.1, by decide⟩

/-- Claim C6: the list operation returns all todos of the store — each row
translated from the storage naming (`is_completed`, `created_at`) to the
API naming (`isCompleted`, `createdAt`) — sorted by creation time
descending. -/
theorem c6_list_sorted_translated (s : Store) :
    (todoGET s).Perm (s.rows.map toResponse) ∧
    List.Sorted (fun a b : TodoResponse => b.createdAt ≤ a.createdAt) (todoGET s) := by
  constructor
  · exact (List.perm_insertionSort newerFirst s.rows).map toResponse
  · exact List.Pairwise.map toResponse (fun a b h => h)
      (List.sorted_insertionSort newerFirst s.rows)

/-- Claim C7: the update applies only the provided fields.  Providing only
`isCompleted` answers 200 with the stored text, id and creation time
untouched (so toggling round-trips and the toggled record appears in a
subsequent list fetch), and providing only `todo` answers 200 with the
stored completion flag, id and creation time untouched. -/
theorem c7_partial_update_frame :
    (∀ (s : Store) (id : String) (flag : Bool) (r : SupabaseTodo),
      id ≠ "" → (s.rows.Pairwise fun a b => a.id ≠ b.id) →
      r ∈ s.rows → r.id = id →
      todoPUT s id { todo := .missing, isCompleted := some flag }
        = (.success { id := r.id, todo := r.todo, isCompleted := flag,
                      createdAt := r.created_at },
           { s with rows := s.rows.map fun x =>
               if x.id = id then { x with is_completed := flag } else x }) ∧
      ({ id := r.id, todo := r.todo, isCompleted := flag,
         createdAt := r.created_at } : TodoResponse) ∈
        todoGET (todoPUT s id { todo := .missing, isCompleted := some flag }).2) ∧
    (∀ (s : Store) (id t : String) (r : SupabaseTodo),
      id ≠ "" → (s.rows.Pairwise fun a b => a.id ≠ b.id) →
      r ∈ s.rows → r.id = id → trimStr t ≠ "" →
      (∀ x ∈ s.rows, x.id ≠ id → ilike (trimStr t) x.todo = false) →
      todoPUT s id { todo := .str t, isCompleted := none }
        = (.success { id := r.id, todo := trimStr t, isCompleted := r.is_completed,
                      createdAt := r.created_at },
           { s with rows := s.rows.map fun x =>
               if x.id = id then { x with todo := trimStr t } else x })) := by
  constructor
  · intro s id flag r hid hpw hr hrid
    have hu := updateRows_of_mem s id
      { todo := none, is_completed := some flag } hpw hr hrid
    have hmain : todoPUT s id { todo := .missing, isCompleted := some flag }
        = (.success { id := r.id, todo := r.todo, isCompleted := flag,
                      createdAt := r.created_at },
           { s with rows := s.rows.map fun x =>
               if x.id = id then { x with is_completed := flag } else x }) := by
      simp only [todoPUT, if_neg hid, putApplyUpdate, hu]
      rfl
    refine ⟨hmain, ?_⟩
    rw [hmain]
    have hmem : ({ r with is_completed := flag } : SupabaseTodo) ∈
        (s.rows.map fun x => if x.id = id then { x with is_completed := flag } else x) :=
      List.mem_map.mpr ⟨r, hr, by simp [hrid]⟩
    have hmem2 : ({ r with is_completed := flag } : SupabaseTodo) ∈
        List.insertionSort newerFirst
          (s.rows.map fun x => if x.id = id then { x with is_completed := flag } else x) :=
      ((List.perm_insertionSort newerFirst _).mem_iff).mpr hmem
    exact List.mem_map_of_mem toResponse hmem2
  · intro s id t r hid hpw hr hrid ht hnodup
    have hany : (s.rows.any fun x => ilike (trimStr t) x.todo && x.id != id) = false := by
      refine List.any_eq_false.mpr fun x hx hpx => ?_
      rcases (by simpa using hpx :
        ilike (trimStr t) x.todo = true ∧ x.id ≠ id) with ⟨hil, hbe⟩
      rw [hnodup x hx hbe] at hil
      cases hil
    have hu := updateRows_of_mem s id
      { todo := some (trimStr t), is_completed := none } hpw hr hrid
    simp only [todoPUT, if_neg hid, if_neg ht, hany, putApplyUpdate, hu]
    rfl

/-- Concrete run of claim C7: toggling the sample row's completion returns
it with only the flag changed, and renaming it returns it with only the
text changed. -/
theorem c7_witness :
    (todoPUT sampleStore "1" { todo := .missing, isCompleted := some true }).1
      = .success { id := "1", todo := "Buy Milk", isCompleted := true, createdAt := 0 } ∧
    (todoPUT sampleStore "1" { todo := .str " Walk Dog ", isCompleted := none }).1
      = .success { id := "1", todo := "Walk Dog", isCompleted := false, createdAt := 0 } := by
  have h1 := c7_partial_update_frame.1 sampleStore "1" true sampleRow
    (by decide) (by decide) (by decide) rfl
  have h2 := c7_partial_update_frame.2 sampleStore "1" " Walk Dog " sampleRow
    (by decide) (by decide) (by decide) rfl (by decide) (by decide)
  exact ⟨by rw [h1.1]; decide, by rw [h2]; decide⟩

/-- Claim C8: for every cached todos list and filter text, the displayed
list is exactly the cached todos whose text contains the filter text as a
case-insensitive substring — it is a subsequence of the cached list whose
members are characterised by that containment — the empty filter displays
every todo, and a todo "Buy Milk" is displayed under the filter "milk". -/
theorem c8_filter_ci_substring (todos : List TodoResponse) (filterText : String) :
    (∀ t, t ∈ filteredTodos todos filterText ↔
      t ∈ todos ∧ (lowerStr filterText).data <:+: (lowerStr t.todo).data) ∧
    List.Sublist (filteredTodos todos filterText) todos ∧
    filteredTodos todos "" = todos ∧
    filteredTodos [{ id := "1", todo := "Buy Milk", isCompleted := false, createdAt := 0 }]
        "milk"
      = [{ id := "1", todo := "Buy Milk", isCompleted := false, createdAt := 0 }] := by
  refine ⟨?_, List.filter_sublist _, ?_, by decide⟩
  · intro t
    simp only [filteredTodos, List.mem_filter, includes_iff]
  · exact List.filter_eq_self.mpr fun t ht => includes_nil _

end VTech
